import Mathlib

/-!
Shallow embedding of the core of `RCA_CompetitorAnalysis.py` (rate
comparison analysis pipeline), together with theorems settling the frozen
claims about it.

Conventions used throughout:
* Python `float` price arithmetic is embedded as exact rational
  arithmetic (`ℚ`).
* Calendar dates are embedded in two ways, matching the two ways the
  source manipulates them: the gap analyzer (which steps dates by one
  day and subtracts dates) works on day ordinals (`ℕ`); the record
  pipeline and the aggregator (which only compare dates and read the
  month number) work on a year/month/day triple with lexicographic
  comparison.
* Python `None` becomes `Option.none`; Python truthiness of an optional
  float (`if x:`) becomes `x` being `some v` with `v ≠ 0`.
-/

/-- A calendar date `year-month-day`, compared lexicographically exactly as
Python compares `date`/`datetime` values. -/
structure PDate where
  y : ℕ
  m : ℕ
  d : ℕ
deriving DecidableEq, Repr

/-- Lexicographic `≤` on dates, the order Python uses for `date` objects. -/
def PDate.leB (a b : PDate) : Bool :=
  (a.y < b.y) || (a.y == b.y && ((a.m < b.m) || (a.m == b.m && a.d ≤ b.d)))

/-- Truthiness of an optional price, as Python evaluates
`if rec.get('walk_in_price'):` — false for `None` and for `0`. -/
def priceTruthy : Option ℚ → Bool
  | none => false
  | some v => decide (v ≠ 0)

/-- Embeds the percent-difference computation shared verbatim by both
adapters (`parse_api_rate_data` lines 1667–1670 and
`convert_db_rates_to_records` lines 1845–1848):

    pct_diff = None
    if regular_rate and online_rate and regular_rate > 0:
        pct_diff = ((regular_rate - online_rate) / regular_rate) * 100

Python truthiness makes `regular_rate and online_rate` require both values
to be non-`None` and nonzero. -/
def pct_difference (regular_rate online_rate : Option ℚ) : Option ℚ :=
  match regular_rate, online_rate with
  | some r, some o =>
      if r ≠ 0 ∧ o ≠ 0 ∧ r > 0 then some ((r - o) / r * 100) else none
  | _, _ => none

/-- One canonical flat rate record as built by either adapter (only the
fields the claims exercise; feature flags and display strings feed only
the `tag`/`features` columns, which no claim mentions). -/
structure RRec where
  store_id : ℤ
  unit_type : String
  size : String
  walk_in_price : Option ℚ
  online_price : Option ℚ
  pct_diff : Option ℚ
  date : PDate
  source : String
deriving DecidableEq, Repr

/-- The deduplication key named by the spec:
`(entity_id, date, size_label, space_type)`. -/
def dedupKey (r : RRec) : ℤ × PDate × String × String :=
  (r.store_id, r.date, r.size, r.unit_type)

/-- Embeds `main` step 11 (line 2650): the combined record set is
`all_records = db_records + api_records`, a plain list concatenation. -/
def combine_records (db_records api_records : List RRec) : List RRec :=
  db_records ++ api_records

/-- One row of the local rate table, restricted to the columns the claims
exercise. -/
structure DbRow where
  store_id : ℤ
  spacetype : String
  size : String
  regular_rate : Option ℚ
  online_rate : Option ℚ
  date_collected : PDate
deriving DecidableEq, Repr

/-- Embeds the database query of `get_trailing_12_month_rates`
(lines 337–418): the SQL `WHERE` clause keeps rows whose `Store_ID` is in
the requested list, whose `Date_Collected` lies in `[from_date, to_date]`,
and whose `Regular_Rate` is not `NULL`; the Python loop then groups the
returned rows by store id. -/
def get_trailing_12_month_rates (table : List DbRow) (store_ids : List ℤ)
    (from_date to_date : PDate) : List (ℤ × List DbRow) :=
  store_ids.map fun sid =>
    (sid, table.filter fun r =>
      r.store_id == sid && PDate.leB from_date r.date_collected &&
        PDate.leB r.date_collected to_date && r.regular_rate.isSome)

/-- Embeds `convert_db_rates_to_records` (lines 1819–1889): every database
row becomes one record with `source = 'Database'`, prices copied through and
the percent difference computed by the shared formula. -/
def convert_db_rates_to_records (rates_by_store : List (ℤ × List DbRow)) :
    List RRec :=
  rates_by_store.flatMap fun p =>
    p.2.map fun rate =>
      { store_id := p.1
        unit_type := rate.spacetype
        size := rate.size
        walk_in_price := rate.regular_rate
        online_price := rate.online_rate
        pct_diff := pct_difference rate.regular_rate rate.online_rate
        date := rate.date_collected
        source := "Database" }

/-- One price observation inside an API `unitType` payload. -/
structure PricePoint where
  pdate : PDate
  regular : Option ℚ
  online : Option ℚ
deriving DecidableEq, Repr

/-- One `unitType` entry of an API store payload. -/
structure ApiUnit where
  utype : String
  size : String
  price : List PricePoint
deriving DecidableEq, Repr

/-- One store payload returned by the `historicaldata` endpoint. -/
structure ApiStore where
  storeID : ℤ
  unitType : List ApiUnit
deriving DecidableEq, Repr

/-- Embeds `parse_api_rate_data` (lines 1601–1701): every price entry of
every unit of every store is appended as a record with `source = 'API'`.
No date-window filter and no null-price filter is applied; the size/feature
string parsing only fills display fields not used by any claim. -/
def parse_api_rate_data (api_data : List ApiStore) : List RRec :=
  api_data.flatMap fun store =>
    store.unitType.flatMap fun unit =>
      unit.price.map fun p =>
        { store_id := store.storeID
          unit_type := unit.utype
          size := unit.size
          walk_in_price := p.regular
          online_price := p.online
          pct_diff := pct_difference p.regular p.online
          date := p.pdate
          source := "API" }

/-- Embeds `analyze_date_gaps` (lines 1418–1444) for one store, with dates
as day ordinals: build the full set of days in `[from_date, to_date]`, take
the coverage set away and sort ascending.  Filtering the ascending run of
days is exactly `sorted(all_dates - store_dates)`. -/
def analyze_date_gaps (coverage : ℕ → Bool) (from_date to_date : ℕ) :
    List ℕ :=
  (List.range' from_date (to_date + 1 - from_date)).filter
    fun d => !(coverage d)

/-- Embeds the loop body of the range compression in `main`
(lines 2621–2627), carrying the loop state `(start, end, ranges)`:

    for d in missing_dates[1:]:
        if (d - end).days == 1:
            end = d
        else:
            ranges.append((start, end))
            start = end = d
    ranges.append((start, end))
-/
def compressGo : List ℕ → ℕ → ℕ → List (ℕ × ℕ) → List (ℕ × ℕ)
  | [], start, e, acc => acc ++ [(start, e)]
  | d :: rest, start, e, acc =>
      if d - e == 1 then compressGo rest start d acc
      else compressGo rest d d (acc ++ [(start, e)])

/-- Embeds the range compression of `main` (lines 2617–2627): group the
sorted missing dates into contiguous ranges.  `main` runs this only for a
non-empty missing list; the empty case yields no ranges. -/
def compress_gap_ranges : List ℕ → List (ℕ × ℕ)
  | [] => []
  | d :: rest => compressGo rest d d []

/-- The inclusive run of days described by one compressed `(start, end)`
range. -/
def seg (p : ℕ × ℕ) : List ℕ :=
  List.range' p.1 (p.2 + 1 - p.1)

/-- Embeds the fixed weight table of `calculate_store_adjustment`
(lines 1993–2002), in the dictionary's insertion order. -/
def weights : List (String × ℚ) :=
  [("Location", 1/100), ("Age", 1/100), ("Accessibility", 5/1000),
   ("VPD", 5/1000), ("Visibility & Signage", 5/1000), ("Brand", 1/100),
   ("Quality", 1/100), ("Size", 1/100)]

/-- Embeds `calculate_store_adjustment` (lines 1967–2016): sum over the
eight weighted categories of `(comp_rank - subj_rank) * weight`, with a
missing rank defaulting to 5, plus the sum of all flat adjustment-factor
values.  Ranking dictionaries are embedded as optional-valued maps
`String → Option ℤ` (`dict.get(category, 5)` is `(m c).getD 5`). -/
def calculate_store_adjustment (store_rankings subject_rankings :
    String → Option ℤ) (adjustment_factors : List (String × ℚ)) : ℚ :=
  (weights.foldl
    (fun total_adj cw =>
      total_adj +
        ((((store_rankings cw.1).getD 5 - (subject_rankings cw.1).getD 5 :
          ℤ) : ℚ) * cw.2))
    0)
  + (adjustment_factors.map Prod.snd).sum

/-- Embeds the per-store adjustment assignment of `generate_csv2_report`
(lines 2049–2057): the subject store is assigned `0.0` outright; every
other store gets `calculate_store_adjustment`. -/
def compute_store_adjustment_entry (store_id subject_store_id : ℤ)
    (rankings : ℤ → String → Option ℤ)
    (adjustment_factors : List (String × ℚ)) : ℚ :=
  if store_id = subject_store_id then 0
  else
    calculate_store_adjustment (rankings store_id)
      (rankings subject_store_id) adjustment_factors

/-- One grouped record as collected by `generate_csv2_report`
(lines 2111–2117): date plus the two optional prices. -/
structure AggRec where
  date : PDate
  walk_in_price : Option ℚ
  online_price : Option ℚ
deriving DecidableEq, Repr

/-- Arithmetic mean of a price list, `sum(l)/len(l) if l else None`. -/
def avgQ (l : List ℚ) : Option ℚ :=
  if l.length ≠ 0 then some (l.sum / l.length) else none

/-- Value of an optional price known to be present (list comprehensions in
the report only collect prices that passed the truthiness filter). -/
def pVal : Option ℚ → ℚ
  | none => 0
  | some v => v

/-- Embeds the monthly walk-in price collection of `generate_csv2_report`
(lines 2181–2186): prices of records in calendar month `m` whose walk-in
price is truthy. -/
def monthly_walk_in (recs : List AggRec) (m : ℕ) : List ℚ :=
  (recs.filter fun r => r.date.m == m && priceTruthy r.walk_in_price).map
    fun r => pVal r.walk_in_price

/-- Embeds the monthly online price collection of `generate_csv2_report`
(lines 2181–2186). -/
def monthly_online (recs : List AggRec) (m : ℕ) : List ℚ :=
  (recs.filter fun r => r.date.m == m && priceTruthy r.online_price).map
    fun r => pVal r.online_price

/-- Embeds `calc_t_averages` (lines 2155–2166): average the truthy walk-in
and online prices of records dated on or after the window start; the
adjusted average is `online_avg * (1 + adjustment_pct)` when the online
average is truthy, else `None`. -/
def calc_t_averages (recs : List AggRec) (start_date : PDate)
    (adjustment_pct : ℚ) : Option ℚ × Option ℚ × Option ℚ :=
  let walk_in_prices :=
    (recs.filter fun r =>
      PDate.leB start_date r.date && priceTruthy r.walk_in_price).map
      fun r => pVal r.walk_in_price
  let online_prices :=
    (recs.filter fun r =>
      PDate.leB start_date r.date && priceTruthy r.online_price).map
      fun r => pVal r.online_price
  let walk_in_avg := avgQ walk_in_prices
  let online_avg := avgQ online_prices
  let online_adj_avg :=
    match online_avg with
    | some v => if v ≠ 0 then some (v * (1 + adjustment_pct)) else none
    | none => none
  (walk_in_avg, online_avg, online_adj_avg)

/-- Embeds the price cells of `export_to_csv` (lines 1956–1957): the cell
is filled (`some price`, rendered `$%.2f` by the writer) only when the
price is truthy; `None` and `0` both yield an empty cell. -/
def csv_price_cell (p : Option ℚ) : Option ℚ :=
  if priceTruthy p then some (pVal p) else none

/-- The shared rate-limiter state of the historical-data client: window
start time and call counter (module globals `_rate_window_start`,
`_rate_call_count`). -/
structure RLState where
  start : ℕ
  count : ℕ
deriving DecidableEq, Repr

/-- Embeds the rate-limit gate of `fetch_historical_data`
(lines 148–167), on a simulated clock in seconds: at arrival time `now`,
if the counter has reached the limit, sleep until the window start plus one
hour (no sleep if the hour already elapsed), reset the window to the wake
time and the counter to zero; the call then starts and the counter is
incremented.  Returns the time the call starts and the new state. -/
def rlAcquire (limit : ℕ) (now : ℕ) (st : RLState) : ℕ × RLState :=
  if st.count ≥ limit then
    let t := if now - st.start < 3600 then st.start + 3600 else now
    (t, ⟨t, 1⟩)
  else
    (now, ⟨st.start, st.count + 1⟩)

/-- Runs the rate-limit gate over a list of arrival times, returning the
list of call start times and the final limiter state. -/
def rlRun (limit : ℕ) : List ℕ → RLState → List ℕ × RLState
  | [], st => ([], st)
  | now :: rest, st =>
      ((rlAcquire limit now st).1 ::
          (rlRun limit rest (rlAcquire limit now st).2).1,
        (rlRun limit rest (rlAcquire limit now st).2).2)

/-- One outcome of an HTTP attempt against the `historicaldata` endpoint:
a parsed success payload, a status code with body text, or a transport
exception. -/
inductive HResp (α : Type) where
  | success (v : α)
  | http (code : ℕ) (body : String)
  | exn (msg : String)
deriving DecidableEq, Repr

/-- Embeds the transient-SQL-timeout signature test of
`fetch_historical_data` (lines 214–215): lower-case the body and look for
one of three substrings. -/
def transient_body (body : String) : Bool :=
  let t := (body.toLower).toList
  decide ( List.IsInfix ("sql server".toList) t)
    || decide ( List.IsInfix ("network-related".toList) t)
    || decide ( List.IsInfix ("timeout".toList) t)

/-- Embeds `_get_auth_token` (lines 51–71) against an abstract login
endpoint: a cached token is returned as-is without consulting the login
endpoint; otherwise a successful login caches and returns
`"Bearer " + token`, and a failed login caches nothing.  Returns the
result and the new cached-token state. -/
def get_auth_token (cached : Option String) (login : Option String) :
    Option String × Option String :=
  match cached with
  | some t => (some t, some t)
  | none =>
      match login with
      | some raw => (some ("Bearer " ++ raw), some ("Bearer " ++ raw))
      | none => (none, none)

/-- Embeds the retry loop of `fetch_historical_data` (lines 148–241),
threading the cached-token state.  `remaining` is the number of loop
iterations left (`max_retries - attempt`); `attempt` indexes the response
and login oracles.  Each iteration refreshes the token via
`get_auth_token`, then classifies the attempt's response:
success returns the payload; 429/404/500/503 and transient-signature 400
retry while iterations remain and otherwise return `None`; any other 400,
any other status (including 401) returns `None` immediately; a transport
exception retries while iterations remain.  The rate-limit gate and the
backoff sleeps do not affect the result and are modelled separately by
`rlAcquire`.  Returns the result and the final cached token. -/
def fetchLoop {α : Type} (login : ℕ → Option String)
    (resps : ℕ → HResp α) :
    (remaining : ℕ) → (attempt : ℕ) → Option String → Option α × Option String
  | 0, _, tok => (none, tok)
  | r + 1, attempt, tok =>
      let tok1 := (get_auth_token tok (login attempt)).2
      match resps attempt with
      | .success v => (some v, tok1)
      | .exn _ =>
          if 0 < r then fetchLoop login resps r (attempt + 1) tok1
          else (none, tok1)
      | .http c b =>
          if c == 429 then
            (if 0 < r then fetchLoop login resps r (attempt + 1) tok1
             else (none, tok1))
          else if c == 404 then
            (if 0 < r then fetchLoop login resps r (attempt + 1) tok1
             else (none, tok1))
          else if c == 500 || c == 503 then
            (if 0 < r then fetchLoop login resps r (attempt + 1) tok1
             else (none, tok1))
          else if c == 400 then
            (if transient_body b then
              (if 0 < r then fetchLoop login resps r (attempt + 1) tok1
               else (none, tok1))
             else (none, tok1))
          else (none, tok1)

/-- Embeds one call of `fetch_historical_data` with retry budget
`max_retries` (default 3), starting at attempt 0 from cached-token state
`tok`. -/
def fetch_historical_data {α : Type} (login : ℕ → Option String)
    (resps : ℕ → HResp α) (max_retries : ℕ) (tok : Option String) :
    Option α × Option String :=
  fetchLoop login resps max_retries 0 tok

/-- The response classes `fetch_historical_data` retries on: 429, 404,
500, 503, a 400 carrying the transient-SQL-timeout signature, or a
transport exception. -/
def isTransient {α : Type} : HResp α → Bool
  | .success _ => false
  | .http c b =>
      c == 429 || c == 404 || c == 500 || c == 503
        || (c == 400 && transient_body b)
  | .exn _ => true

/-- A local database row used in concrete instances: entity 1, Unit 10x10,
prices 100/90, collected 2025-01-05. -/
def exDbRow : DbRow :=
  ⟨1, "Unit", "10x10", some 100, some 90, ⟨2025, 1, 5⟩⟩

/-- A remote API payload sharing `exDbRow`'s deduplication key
`(1, 2025-01-05, "10x10", "Unit")` but with different prices. -/
def exApiStore : ApiStore :=
  ⟨1, [⟨"Unit", "10x10", [⟨⟨2025, 1, 5⟩, some 120, some 110⟩]⟩]⟩

/-- The combined record set of the pipeline run on `exDbRow` (local) and
`exApiStore` (remote), following `main` steps 7, 10 and 11. -/
def exCombined : List RRec :=
  combine_records
    (convert_db_rates_to_records
      (get_trailing_12_month_rates [exDbRow] [1] ⟨2024, 12, 1⟩ ⟨2025, 12, 1⟩))
    (parse_api_rate_data [exApiStore])

/-- A remote API payload whose single price observation has both prices
null. -/
def exApiStoreNull : ApiStore :=
  ⟨3, [⟨"Unit", "5x5", [⟨⟨2025, 1, 5⟩, none, none⟩]⟩]⟩

/-- A local database row with no online price, used by the invariant
witness. -/
def exDbRowNoOnline : DbRow :=
  ⟨1, "Unit", "10x10", some 100, none, ⟨2025, 1, 5⟩⟩

/-- The coverage calendar of the spec's gap-analyzer example, on day
ordinals 1..10 standing for 2024-12-01..2024-12-10: days 1, 2, 5, 6, 7
are covered. -/
def exCoverage : ℕ → Bool :=
  fun d => decide (d = 1 ∨ d = 2 ∨ d = 5 ∨ d = 6 ∨ d = 7)

/-- The subject rankings of the spec's scorer example: all categories 5
except Size = 7. -/
def exSubjectRankings : String → Option ℤ :=
  fun c => if c = "Size" then some 7 else some 5

/-- The comparator rankings of the spec's scorer example: all categories 5
except Size = 9 and Brand = 8. -/
def exCompRankings : String → Option ℤ :=
  fun c => if c = "Size" then some 9 else if c = "Brand" then some 8 else some 5

/-- An arrival schedule for the rate limiter: 3000 requests arriving at
second 3599, then 3000 requests arriving at second 3600.  It is a valid
sequential schedule: arrival times never decrease, and no call arrives
before the start time of the previous call. -/
def exArrivals : List ℕ :=
  List.replicate 3000 3599 ++ List.replicate 3000 3600

/-- Claim C1, counterexample: run the pipeline on a local record and a
remote record sharing the deduplication key `(1, 2025-01-05, "10x10",
"Unit")`.  The combined record set keeps BOTH copies (two records for the
key, one of them with source `API`), refuting "the merged output keeps
exactly one record for that key, and its source is local". -/
theorem C1_counterexample :
    ((exCombined.filter fun r =>
        decide (dedupKey r = (1, ⟨2025, 1, 5⟩, "10x10", "Unit"))).length
      = 2) ∧
    ("API" ∈ (exCombined.filter fun r =>
        decide (dedupKey r = (1, ⟨2025, 1, 5⟩, "10x10", "Unit"))).map
        RRec.source) ∧
    ¬(2 = 1) := by
  decide

/-- Claim C1, amended: the combined record set is the plain concatenation
of the database records followed by the API records; no deduplication is
performed, so for every key the combined set holds one record per local
occurrence PLUS one per remote occurrence of that key. -/
theorem C1_concat_no_dedup :
    ∀ (db_records api_records : List RRec) (k : ℤ × PDate × String × String),
    combine_records db_records api_records = db_records ++ api_records ∧
    ((combine_records db_records api_records).filter fun r =>
        decide (dedupKey r = k)).length =
      (db_records.filter fun r => decide (dedupKey r = k)).length +
        (api_records.filter fun r => decide (dedupKey r = k)).length := by
  intro db api k
  refine ⟨rfl, ?_⟩
  simp [combine_records]

/-- Claim C4: the adjustment is the weighted sum of rank deltas over the
eight fixed categories (weights 0.010/0.010/0.005/0.005/0.005/0.010/0.010/
0.010, missing ranks defaulting to 5) plus the sum of the flat factors;
the spec's worked example evaluates to exactly 0.07. -/
theorem C4_adjustment_formula :
    (∀ (comp subj : String → Option ℤ) (factors : List (String × ℚ)),
      calculate_store_adjustment comp subj factors =
        (1/100) * (((comp "Location").getD 5 - (subj "Location").getD 5 : ℤ) : ℚ)
        + (1/100) * (((comp "Age").getD 5 - (subj "Age").getD 5 : ℤ) : ℚ)
        + (5/1000) * (((comp "Accessibility").getD 5 - (subj "Accessibility").getD 5 : ℤ) : ℚ)
        + (5/1000) * (((comp "VPD").getD 5 - (subj "VPD").getD 5 : ℤ) : ℚ)
        + (5/1000) * (((comp "Visibility & Signage").getD 5 - (subj "Visibility & Signage").getD 5 : ℤ) : ℚ)
        + (1/100) * (((comp "Brand").getD 5 - (subj "Brand").getD 5 : ℤ) : ℚ)
        + (1/100) * (((comp "Quality").getD 5 - (subj "Quality").getD 5 : ℤ) : ℚ)
        + (1/100) * (((comp "Size").getD 5 - (subj "Size").getD 5 : ℤ) : ℚ)
        + (factors.map Prod.snd).sum) ∧
    calculate_store_adjustment exCompRankings exSubjectRankings
      [("CaptiveMarketPremium", 2/100)] = 7/100 := by
  constructor
  · intro comp subj factors
    simp [calculate_store_adjustment, weights]
    ring
  · simp +decide only [calculate_store_adjustment, weights, exCompRankings,
      exSubjectRankings, List.foldl, List.map, List.sum]
    norm_num

/-- Claim C5, counterexample: with comparator rankings equal to subject
rankings but one flat factor 0.02, `calculate_store_adjustment` returns
0.02, not 0 — the flat factors are added even to a self-comparison. -/
theorem C5_counterexample :
    calculate_store_adjustment (fun _ => some 5) (fun _ => some 5)
      [("CaptiveMarketPremium", 1/50)] = 1/50 ∧ (1/50 : ℚ) ≠ 0 := by
  constructor
  · norm_num [calculate_store_adjustment, weights]
  · norm_num

/-- Claim C5, amended: a self-comparison returns exactly the sum of the
flat adjustment factors (hence 0 when no factors are supplied), and the
report pipeline assigns the subject store an adjustment of exactly 0 by
special-casing it, without invoking the scorer. -/
theorem C5_self_adjustment :
    (∀ (r : String → Option ℤ) (factors : List (String × ℚ)),
      calculate_store_adjustment r r factors = (factors.map Prod.snd).sum) ∧
    (∀ r : String → Option ℤ, calculate_store_adjustment r r [] = 0) ∧
    (∀ (subject_store_id : ℤ) (rankings : ℤ → String → Option ℤ)
        (factors : List (String × ℚ)),
      compute_store_adjustment_entry subject_store_id subject_store_id
        rankings factors = 0) := by
  refine ⟨?_, ?_, ?_⟩
  · intro r factors
    simp [calculate_store_adjustment, weights]
  · intro r
    simp [calculate_store_adjustment, weights]
  · intro sid rankings factors
    simp [compute_store_adjustment_entry]

/-- Claim C8, counterexample: an API record with both prices present and
regular = 100 > 0 but online = 0 gets a null percent difference (Python
truthiness treats the 0 online price as absent), refuting "it is computed,
not null, for any record where both prices are present with regular > 0". -/
theorem C8_counterexample :
    ((parse_api_rate_data
        [⟨7, [⟨"Unit", "10x10", [⟨⟨2025, 1, 5⟩, some 100, some 0⟩]⟩]⟩]).map
      RRec.pct_diff = [none]) ∧
    (some (100 : ℚ) ≠ none) ∧ (some (0 : ℚ) ≠ none) ∧ ((100 : ℚ) > 0) ∧
    ((none : Option ℚ) ≠ some (((100 : ℚ) - 0) / 100 * 100)) := by
  refine ⟨by decide, by simp, by simp, by norm_num, by simp⟩

/-- Claim C8, amended: the percent difference is computed as
`(regular - online) / regular * 100` exactly when both prices are present,
`regular > 0` AND `online ≠ 0`; it is null in every other case (a zero
online price is treated as absent).  Both adapters store exactly this
value. -/
theorem C8_pct_difference :
    (∀ r o : ℚ, pct_difference (some r) (some o) =
      if 0 < r ∧ o ≠ 0 then some ((r - o) / r * 100) else none) ∧
    (∀ o, pct_difference none o = none) ∧
    (∀ r, pct_difference r none = none) ∧
    (∀ rates_by_store, ((convert_db_rates_to_records rates_by_store).all
      fun rec =>
        rec.pct_diff == pct_difference rec.walk_in_price rec.online_price)) ∧
    (∀ api_data, ((parse_api_rate_data api_data).all
      fun rec =>
        rec.pct_diff == pct_difference rec.walk_in_price rec.online_price)) := by
  refine ⟨?_, ?_, ?_, ?_, ?_⟩
  · intro r o
    have hiff : (r ≠ 0 ∧ o ≠ 0 ∧ r > 0) ↔ (0 < r ∧ o ≠ 0) := by
      constructor
      · rintro ⟨_, h2, h3⟩; exact ⟨h3, h2⟩
      · rintro ⟨h1, h2⟩; exact ⟨h1.ne', h2, h1⟩
    simp only [pct_difference, hiff]
  · intro o; simp [pct_difference]
  · intro r; cases r <;> simp [pct_difference]
  · intro rbs
    simp only [convert_db_rates_to_records, List.all_eq_true]
    intro rec hrec
    simp only [List.mem_flatMap, List.mem_map] at hrec
    obtain ⟨p, _, rate, _, rfl⟩ := hrec
    simp
  · intro api_data
    simp only [parse_api_rate_data, List.all_eq_true]
    intro rec hrec
    simp only [List.mem_flatMap, List.mem_map] at hrec
    obtain ⟨store, _, unit, _, p, _, rfl⟩ := hrec
    simp

/-- Claim C10: a price equal to 0 is treated as absent throughout the
output stage — it renders as an empty CSV cell, is excluded from every
monthly and trailing-period price collection (so it never changes, in
particular never lowers, any reported average), and yields a null percent
difference. -/
theorem C10_zero_price_absent :
    (csv_price_cell (some 0) = none) ∧
    (csv_price_cell none = none) ∧
    (∀ (recs : List AggRec) (r : AggRec) (m : ℕ),
      r.walk_in_price = some 0 →
      monthly_walk_in (r :: recs) m = monthly_walk_in recs m) ∧
    (∀ (recs : List AggRec) (r : AggRec) (m : ℕ),
      r.online_price = some 0 →
      monthly_online (r :: recs) m = monthly_online recs m) ∧
    (∀ (recs : List AggRec) (r : AggRec) (start_date : PDate) (adj : ℚ),
      r.walk_in_price = some 0 →
      (calc_t_averages (r :: recs) start_date adj).1 =
        (calc_t_averages recs start_date adj).1) ∧
    (∀ (recs : List AggRec) (r : AggRec) (start_date : PDate) (adj : ℚ),
      r.online_price = some 0 →
      (calc_t_averages (r :: recs) start_date adj).2 =
        (calc_t_averages recs start_date adj).2) ∧
    (∀ o, pct_difference (some 0) o = none) ∧
    (∀ reg, pct_difference reg (some 0) = none) := by
  refine ⟨?_, ?_, ?_, ?_, ?_, ?_, ?_, ?_⟩
  · simp [csv_price_cell, priceTruthy]
  · simp [csv_price_cell, priceTruthy]
  · intro recs r m h
    simp [monthly_walk_in, h, priceTruthy]
  · intro recs r m h
    simp [monthly_online, h, priceTruthy]
  · intro recs r start_date adj h
    simp [calc_t_averages, h, priceTruthy]
  · intro recs r start_date adj h
    simp [calc_t_averages, h, priceTruthy]
  · intro o
    cases o <;> simp [pct_difference]
  · intro reg
    cases reg <;> simp [pct_difference]

/-- Claim C10, witness: the per-claim theorem applied at a concrete record
with zero prices dated 2025-01-10. -/
theorem C10_zero_price_absent_witness :
    (monthly_walk_in [⟨⟨2025, 1, 10⟩, some 0, some 100⟩] 1 =
      monthly_walk_in [] 1) ∧
    ((calc_t_averages [⟨⟨2025, 1, 10⟩, some 0, some 0⟩] ⟨2025, 1, 1⟩ 0).1 =
      (calc_t_averages [] ⟨2025, 1, 1⟩ 0).1) ∧
    (pct_difference (some 0) (some 100) = none) :=
  ⟨C10_zero_price_absent.2.2.1 [] ⟨⟨2025, 1, 10⟩, some 0, some 100⟩ 1 rfl,
   C10_zero_price_absent.2.2.2.2.1 [] ⟨⟨2025, 1, 10⟩, some 0, some 0⟩
     ⟨2025, 1, 1⟩ 0 rfl,
   C10_zero_price_absent.2.2.2.2.2.2.1 (some 100)⟩

/-- Length of a `flatMap` as the sum of the per-element lengths. -/
theorem length_flatMap_eq_sum {α β : Type} (l : List α) (f : α → List β) :
    (l.flatMap f).length = (l.map fun a => (f a).length).sum := by
  induction l with
  | nil => rfl
  | cons a t ih => simp [List.flatMap_cons, ih]

/-- Claim C6, counterexample: the remote adapter retains a price
observation whose prices are BOTH null — the combined record set contains
a record violating "at least one of regular_price/online_price is
non-null", refuting the invariant for the remote adapter. -/
theorem C6_counterexample :
    ((⟨3, "Unit", "5x5", none, none, none, ⟨2025, 1, 5⟩, "API"⟩ : RRec) ∈
      combine_records [] (parse_api_rate_data [exApiStoreNull])) ∧
    ¬((none : Option ℚ).isSome ∨ (none : Option ℚ).isSome) := by
  decide

/-- Claim C6, amended: records from the local (database) adapter do satisfy
the invariant — their date lies in the requested window and their regular
price is non-null, by the query's WHERE clause; the remote adapter applies
no filter at all: every price observation of the API payload becomes a
retained record, date and null prices notwithstanding. -/
theorem C6_invariant :
    (∀ (table : List DbRow) (ids : List ℤ) (from_date to_date : PDate)
        (r : RRec),
      r ∈ convert_db_rates_to_records
            (get_trailing_12_month_rates table ids from_date to_date) →
      PDate.leB from_date r.date = true ∧ PDate.leB r.date to_date = true ∧
        r.walk_in_price.isSome = true ∧ r.source = "Database") ∧
    (∀ api_data : List ApiStore,
      (parse_api_rate_data api_data).length =
        (api_data.map fun s =>
          (s.unitType.map fun u => u.price.length).sum).sum) := by
  constructor
  · intro table ids lo hi r hr
    simp only [convert_db_rates_to_records, get_trailing_12_month_rates,
      List.mem_flatMap, List.mem_map] at hr
    obtain ⟨p, ⟨sid, hsid, rfl⟩, rate, hrate, rfl⟩ := hr
    simp only [List.mem_filter] at hrate
    obtain ⟨-, hcond⟩ := hrate
    simp only [Bool.and_eq_true] at hcond
    exact ⟨hcond.1.1.2, hcond.1.2, hcond.2, rfl⟩
  · intro api_data
    rw [parse_api_rate_data, length_flatMap_eq_sum]
    refine congrArg List.sum (List.map_congr_left fun s _ => ?_)
    rw [length_flatMap_eq_sum]
    refine congrArg List.sum (List.map_congr_left fun u _ => ?_)
    simp

/-- Claim C6, witness: the amended invariant applied to the concrete local
row `exDbRowNoOnline` flowing through the pipeline. -/
theorem C6_invariant_witness :
    PDate.leB ⟨2024, 12, 1⟩ (⟨1, "Unit", "10x10", some 100, none, none,
        ⟨2025, 1, 5⟩, "Database"⟩ : RRec).date = true ∧
    PDate.leB (⟨1, "Unit", "10x10", some 100, none, none,
        ⟨2025, 1, 5⟩, "Database"⟩ : RRec).date ⟨2025, 12, 1⟩ = true ∧
    (⟨1, "Unit", "10x10", some 100, none, none,
        ⟨2025, 1, 5⟩, "Database"⟩ : RRec).walk_in_price.isSome = true ∧
    (⟨1, "Unit", "10x10", some 100, none, none,
        ⟨2025, 1, 5⟩, "Database"⟩ : RRec).source = "Database" :=
  C6_invariant.1 [exDbRowNoOnline] [1] ⟨2024, 12, 1⟩ ⟨2025, 12, 1⟩ _
    (by decide)

/-- Claim C7, counterexample: with a cached token, a 401 (token rejected)
on the first attempt makes the client return failure immediately with the
stale token STILL cached — no cache clear, no retry.  The response oracle
would succeed on attempt 1, so a single retry with a fresh token would
have succeeded. -/
theorem C7_counterexample :
    fetch_historical_data (fun _ => some "freshtoken")
      (fun i => if i == 0 then HResp.http 401 "Unauthorized"
                else HResp.success (0 : ℕ))
      3 (some "Bearer stale")
      = (none, some "Bearer stale") := by
  decide

/-- Claim C7, amended: the first half of the claim holds — a cached token
is returned as-is and the login endpoint is not consulted; but there is no
token-rejection handling: a cached token is never cleared by the fetch
loop, and a 401 response returns failure immediately with no retry. -/
theorem C7_token_behavior :
    (∀ (t : String) (login : Option String),
      get_auth_token (some t) login = (some t, some t)) ∧
    (∀ (α : Type) (login : ℕ → Option String) (resps : ℕ → HResp α)
        (remaining attempt : ℕ) (t : String),
      (fetchLoop login resps remaining attempt (some t)).2 = some t) ∧
    (∀ (α : Type) (login : ℕ → Option String) (resps : ℕ → HResp α)
        (remaining attempt : ℕ) (tok : Option String) (b : String),
      resps attempt = HResp.http 401 b →
      fetchLoop login resps (remaining + 1) attempt tok =
        (none, (get_auth_token tok (login attempt)).2)) := by
  refine ⟨?_, ?_, ?_⟩
  · intro t login
    rfl
  · intro α login resps remaining
    induction remaining with
    | zero => intro attempt t; rfl
    | succ r ih =>
        intro attempt t
        show (fetchLoop login resps (r + 1) attempt (some t)).2 = some t
        rw [fetchLoop]
        cases resps attempt with
        | success v => rfl
        | exn m =>
            by_cases h : 0 < r
            · simp only [if_pos h, get_auth_token]
              exact ih (attempt + 1) t
            · simp only [if_neg h, get_auth_token]
        | http c b =>
            by_cases h429 : c == 429
            · simp only [if_pos h429, get_auth_token]
              by_cases h : 0 < r
              · simp only [if_pos h]; exact ih (attempt + 1) t
              · simp only [if_neg h]
            · simp only [if_neg h429]
              by_cases h404 : c == 404
              · simp only [if_pos h404, get_auth_token]
                by_cases h : 0 < r
                · simp only [if_pos h]; exact ih (attempt + 1) t
                · simp only [if_neg h]
              · simp only [if_neg h404]
                by_cases h5 : c == 500 || c == 503
                · simp only [if_pos h5, get_auth_token]
                  by_cases h : 0 < r
                  · simp only [if_pos h]; exact ih (attempt + 1) t
                  · simp only [if_neg h]
                · simp only [if_neg h5]
                  by_cases h400 : c == 400
                  · simp only [if_pos h400, get_auth_token]
                    by_cases htb : transient_body b
                    · simp only [if_pos htb]
                      by_cases h : 0 < r
                      · simp only [if_pos h]; exact ih (attempt + 1) t
                      · simp only [if_neg h]
                    · simp only [if_neg htb]
                  · simp only [if_neg h400, get_auth_token]
  · intro α login resps remaining attempt tok b hresp
    rw [fetchLoop, hresp]
    simp

/-- Claim C7, witness: the amended no-retry behaviour applied at a
concrete 401 trace starting from an empty token cache. -/
theorem C7_token_behavior_witness :
    fetchLoop (fun _ => some "tk") (fun _ => HResp.http 401 "denied")
      (2 + 1) 0 (none : Option String) =
      ((none : Option ℕ),
        (get_auth_token none ((fun _ : ℕ => some "tk") 0)).2) :=
  C7_token_behavior.2.2 ℕ (fun _ => some "tk")
    (fun _ => HResp.http 401 "denied") 2 0 none "denied" rfl

/-- One transient attempt with iterations remaining advances the fetch
loop to the next attempt. -/
theorem fetchLoop_transient_step {α : Type} (login : ℕ → Option String)
    (resps : ℕ → HResp α) (r attempt : ℕ) (tok : Option String)
    (ht : isTransient (resps attempt) = true) (hr : 0 < r) :
    fetchLoop login resps (r + 1) attempt tok =
      fetchLoop login resps r (attempt + 1)
        (get_auth_token tok (login attempt)).2 := by
  rw [fetchLoop]
  cases hresp : resps attempt with
  | success v => rw [hresp] at ht; simp [isTransient] at ht
  | exn m => simp [hr]
  | http c b =>
      rw [hresp] at ht
      simp only [isTransient, Bool.or_eq_true, Bool.and_eq_true, beq_iff_eq,
        decide_eq_true_eq] at ht
      rcases ht with ((((h | h) | h) | h) | ⟨h, htb⟩)
      · subst h; simp [hr]
      · subst h; simp [hr]
      · subst h; simp [hr]
      · subst h; simp [hr]
      · subst h; simp [hr, htb]

/-- A transient attempt with no iterations remaining ends the fetch loop
with a failure result. -/
theorem fetchLoop_transient_last {α : Type} (login : ℕ → Option String)
    (resps : ℕ → HResp α) (attempt : ℕ) (tok : Option String)
    (ht : isTransient (resps attempt) = true) :
    fetchLoop login resps 1 attempt tok =
      (none, (get_auth_token tok (login attempt)).2) := by
  rw [fetchLoop]
  cases hresp : resps attempt with
  | success v => rw [hresp] at ht; simp [isTransient] at ht
  | exn m => simp
  | http c b =>
      rw [hresp] at ht
      simp only [isTransient, Bool.or_eq_true, Bool.and_eq_true, beq_iff_eq,
        decide_eq_true_eq] at ht
      rcases ht with ((((h | h) | h) | h) | ⟨h, htb⟩)
      · subst h; simp
      · subst h; simp
      · subst h; simp
      · subst h; simp
      · subst h; simp [htb]

/-- The fetch-loop result examines only the responses of the attempts it
may perform: attempts `attempt, …, attempt + remaining - 1`. -/
theorem fetchLoop_result_local {α : Type} (login login2 : ℕ → Option String)
    (resps resps2 : ℕ → HResp α) :
    ∀ (remaining attempt : ℕ) (tok tok2 : Option String),
      (∀ i, attempt ≤ i → i < attempt + remaining → resps i = resps2 i) →
      (fetchLoop login resps remaining attempt tok).1 =
        (fetchLoop login2 resps2 remaining attempt tok2).1 := by
  intro remaining
  induction remaining with
  | zero => intro attempt tok tok2 _; rfl
  | succ r ih =>
      intro attempt tok tok2 hag
      have hsame : resps attempt = resps2 attempt :=
        hag attempt le_rfl (by omega)
      have hrec : ∀ (t1 t2 : Option String),
          (fetchLoop login resps r (attempt + 1) t1).1 =
            (fetchLoop login2 resps2 r (attempt + 1) t2).1 :=
        fun t1 t2 => ih (attempt + 1) t1 t2
          (fun i h1 h2 => hag i (by omega) (by omega))
      rw [fetchLoop, fetchLoop, hsame]
      cases resps2 attempt with
      | success v => rfl
      | exn m =>
          by_cases h : 0 < r
          · simp only [if_pos h]; exact hrec _ _
          · simp only [if_neg h]
      | http c b =>
          by_cases h429 : c == 429
          · simp only [if_pos h429]
            by_cases h : 0 < r
            · simp only [if_pos h]; exact hrec _ _
            · simp only [if_neg h]
          · simp only [if_neg h429]
            by_cases h404 : c == 404
            · simp only [if_pos h404]
              by_cases h : 0 < r
              · simp only [if_pos h]; exact hrec _ _
              · simp only [if_neg h]
            · simp only [if_neg h404]
              by_cases h5 : c == 500 || c == 503
              · simp only [if_pos h5]
                by_cases h : 0 < r
                · simp only [if_pos h]; exact hrec _ _
                · simp only [if_neg h]
              · simp only [if_neg h5]
                by_cases h400 : c == 400
                · simp only [if_pos h400]
                  by_cases htb : transient_body b
                  · simp only [if_pos htb]
                    by_cases h : 0 < r
                    · simp only [if_pos h]; exact hrec _ _
                    · simp only [if_neg h]
                  · simp only [if_neg htb]
                · simp only [if_neg h400]

/-- Claim C9: with `max_retries = 3`, any sequence of transient-class
responses (429, 404, 500, 503, a 400 with the transient-SQL-timeout
signature, or a transport exception) makes `fetch_historical_data` perform
at most 3 attempts and return the failure result `None`: the result is
`None` whenever the first three responses are transient, and the result
never depends on any response past the first three (so no fourth attempt
is ever performed). -/
theorem C9_retry_bound :
    (∀ (α : Type) (login : ℕ → Option String) (resps : ℕ → HResp α)
        (tok : Option String),
      (∀ i, i < 3 → isTransient (resps i) = true) →
      (fetch_historical_data login resps 3 tok).1 = none) ∧
    (∀ (α : Type) (login login2 : ℕ → Option String)
        (resps resps2 : ℕ → HResp α) (tok tok2 : Option String),
      (∀ i, i < 3 → resps i = resps2 i) →
      (fetch_historical_data login resps 3 tok).1 =
        (fetch_historical_data login2 resps2 3 tok2).1) := by
  constructor
  · intro α login resps tok htr
    show (fetchLoop login resps (2 + 1) 0 tok).1 = none
    rw [fetchLoop_transient_step login resps 2 0 tok (htr 0 (by omega))
      (by omega)]
    rw [show (2 : ℕ) = 1 + 1 from rfl]
    rw [fetchLoop_transient_step login resps 1 1 _ (htr 1 (by omega))
      (by omega)]
    rw [fetchLoop_transient_last login resps 2 _ (htr 2 (by omega))]
  · intro α login login2 resps resps2 tok tok2 hag
    exact fetchLoop_result_local login login2 resps resps2 3 0 tok tok2
      (fun i h1 h2 => hag i (by omega))

/-- Claim C9, witness: the bound applied to the all-500 response sequence
from an empty token cache. -/
theorem C9_retry_bound_witness :
    (fetch_historical_data (fun _ => some "tk")
      (fun _ => HResp.http 500 "server error") 3 (none : Option String)).1
      = (none : Option ℕ) :=
  C9_retry_bound.1 ℕ (fun _ => some "tk")
    (fun _ => HResp.http 500 "server error") none (fun _ _ => rfl)

/-- Running the rate-limit gate over a concatenation splits into the two
runs, threading the state. -/
theorem rlRun_append (limit : ℕ) (a b : List ℕ) (st : RLState) :
    rlRun limit (a ++ b) st =
      ((rlRun limit a st).1 ++ (rlRun limit b (rlRun limit a st).2).1,
        (rlRun limit b (rlRun limit a st).2).2) := by
  induction a generalizing st with
  | nil => simp [rlRun]
  | cons now rest ih =>
      simp only [List.cons_append, rlRun, List.append_eq]
      rw [ih]

/-- While the counter stays below the limit, every call of a constant
arrival block starts immediately and only the counter advances. -/
theorem rlRun_replicate (limit : ℕ) (k t s c : ℕ) (h : c + k ≤ limit) :
    rlRun limit (List.replicate k t) ⟨s, c⟩ =
      (List.replicate k t, ⟨s, c + k⟩) := by
  induction k generalizing c with
  | zero => simp [rlRun]
  | succ n ih =>
      rw [List.replicate_succ, rlRun]
      have hc : ¬(c ≥ limit) := by omega
      simp only [rlAcquire, if_neg hc]
      rw [ih (c + 1) (by omega)]
      simp only [List.replicate_succ]
      refine congrArg (fun x => (t :: List.replicate n t, x)) ?_
      refine congrArg (RLState.mk s) ?_
      omega

/-- Every element of a replicate satisfies a predicate it satisfies once:
`countP` over `replicate`. -/
theorem countP_replicate {α : Type} (p : α → Bool) (n : ℕ) (a : α) :
    (List.replicate n a).countP p = if p a then n else 0 := by
  induction n with
  | zero => simp [List.replicate_zero, List.countP_nil]
  | succ n ih =>
      rw [List.replicate_succ, List.countP_cons, ih]
      by_cases h : p a <;> simp [h]

/-- Claim C2, counterexample: with the default limit 3000, the schedule
`exArrivals` (3000 requests at second 3599, then 3000 at second 3600,
never a decreasing clock) produces 3000 call starts at second 3599 and
3000 call starts at second 3600 — 6000 calls starting inside the single
rolling hour `[3599, 7199)`, twice the claimed bound.  The gate only
enforces the fixed window measured from the window-start timestamp. -/
theorem C2_counterexample :
    ((rlRun 3000 exArrivals ⟨0, 0⟩).1.countP
        fun t => decide (3599 ≤ t) && decide (t < 3599 + 3600)) = 6000 ∧
    3000 < 6000 ∧ List.Chain' (· ≤ ·) exArrivals := by
  have h1 : rlRun 3000 (List.replicate 3000 3599) ⟨0, 0⟩ =
      (List.replicate 3000 3599, ⟨0, 3000⟩) :=
    rlRun_replicate 3000 3000 3599 0 0 (by omega)
  have h2 : rlRun 3000 (List.replicate 3000 3600) ⟨0, 3000⟩ =
      (3600 :: List.replicate 2999 3600, ⟨3600, 3000⟩) := by
    rw [show (3000 : ℕ) = 2999 + 1 from rfl, List.replicate_succ, rlRun]
    have : rlAcquire 3000 3600 ⟨0, 3000⟩ = (3600, ⟨3600, 1⟩) := by
      simp [rlAcquire]
    rw [this]
    rw [rlRun_replicate 3000 2999 3600 3600 1 (by omega)]
  have hrun : (rlRun 3000 exArrivals ⟨0, 0⟩).1 =
      List.replicate 3000 3599 ++ 3600 :: List.replicate 2999 3600 := by
    rw [exArrivals, rlRun_append, h1]
    simp only
    rw [h2]
  refine ⟨?_, by omega, ?_⟩
  · rw [hrun]
    rw [List.countP_append, List.countP_cons, countP_replicate,
      countP_replicate]
    norm_num
  · rw [exArrivals]
    rw [List.chain'_append]
    refine ⟨?_, ?_, ?_⟩
    · exact List.chain'_replicate_of_rel 3000 le_rfl
    · exact List.chain'_replicate_of_rel 3000 le_rfl
    · intro x hx y hy
      rw [List.getLast?_replicate] at hx
      norm_num at hx
      rw [List.head?_replicate] at hy
      norm_num at hy
      omega

/-- The counter never exceeds the limit across a run of the gate. -/
theorem rlRun_count_le (limit : ℕ) (hN : 1 ≤ limit) (arrivals : List ℕ) :
    ∀ st : RLState, st.count ≤ limit →
      (rlRun limit arrivals st).2.count ≤ limit := by
  induction arrivals with
  | nil => intro st h; exact h
  | cons now rest ih =>
      intro st h
      rw [rlRun]
      apply ih
      rw [rlAcquire]
      by_cases hc : st.count ≥ limit
      · simp only [if_pos hc]; exact hN
      · simp only [if_neg hc]; omega

/-- Claim C2, amended: the limiter implements a FIXED window, not a
rolling one.  Whenever the shared counter has reached the limit, the next
call blocks until the window's elapsed time reaches one hour (it starts at
`window_start + 3600` if the hour has not yet elapsed, immediately
otherwise) and the window and counter are reset; a call under the limit
starts immediately and only increments the counter, so at most `limit`
calls start inside each fixed window between consecutive resets (the
counter never exceeds the limit).  A rolling one-hour interval spanning a
reset can see up to twice the limit. -/
theorem C2_fixed_window (limit now s c : ℕ) (hN : 1 ≤ limit) :
    (limit ≤ c → now < s + 3600 →
      (rlAcquire limit now ⟨s, c⟩).1 = s + 3600 ∧
        (rlAcquire limit now ⟨s, c⟩).2 = ⟨s + 3600, 1⟩) ∧
    (limit ≤ c → s + 3600 ≤ now →
      (rlAcquire limit now ⟨s, c⟩).1 = now ∧
        (rlAcquire limit now ⟨s, c⟩).2 = ⟨now, 1⟩) ∧
    (c < limit →
      (rlAcquire limit now ⟨s, c⟩).1 = now ∧
        (rlAcquire limit now ⟨s, c⟩).2 = ⟨s, c + 1⟩) ∧
    (∀ arrivals : List ℕ, c ≤ limit →
      (rlRun limit arrivals ⟨s, c⟩).2.count ≤ limit) := by
  refine ⟨?_, ?_, ?_, ?_⟩
  · intro hc hnow
    have hlt : now - s < 3600 := by omega
    simp [rlAcquire, hc, hlt]
  · intro hc hnow
    have hlt : ¬(now - s < 3600) := by omega
    simp [rlAcquire, hc, hlt]
  · intro hc
    have hge : ¬(c ≥ limit) := by omega
    simp [rlAcquire, hge]
  · intro arrivals hle
    exact rlRun_count_le limit hN arrivals ⟨s, c⟩ hle

/-- Claim C2, witness: the amended fixed-window behaviour at the default
limit 3000, a saturated counter and a clock inside the window. -/
theorem C2_fixed_window_witness :
    ((rlAcquire 3000 10 ⟨0, 3000⟩).1 = 0 + 3600 ∧
      (rlAcquire 3000 10 ⟨0, 3000⟩).2 = ⟨0 + 3600, 1⟩) ∧
    (rlRun 3000 [0, 1, 2] ⟨0, 0⟩).2.count ≤ 3000 :=
  ⟨(C2_fixed_window 3000 10 0 3000 (by norm_num)).1 (by norm_num)
      (by norm_num),
   (C2_fixed_window 3000 0 0 0 (by norm_num)).2.2.2 [0, 1, 2]
      (by norm_num)⟩

/-- The compression loop only appends to its accumulator. -/
theorem compressGo_acc (rest : List ℕ) :
    ∀ (s e : ℕ) (acc : List (ℕ × ℕ)),
      compressGo rest s e acc = acc ++ compressGo rest s e [] := by
  induction rest with
  | nil => intro s e acc; simp [compressGo]
  | cons d tl ih =>
      intro s e acc
      rw [compressGo, compressGo]
      by_cases h : d - e == 1
      · simp only [if_pos h]
        exact ih s d acc
      · simp only [if_neg h, List.nil_append]
        rw [ih d d (acc ++ [(s, e)]), ih d d [(s, e)]]
        simp [List.append_assoc]

/-- Expanding the compressed ranges of a strictly ascending tail
reproduces the open run `[s..e]` followed by that tail. -/
theorem compressGo_flatten (rest : List ℕ) :
    ∀ s e : ℕ, s ≤ e → List.Chain' (· < ·) (e :: rest) →
      (compressGo rest s e []).flatMap seg = seg (s, e) ++ rest := by
  induction rest with
  | nil => intro s e _ _; simp [compressGo, seg]
  | cons d tl ih =>
      intro s e hse hch
      obtain ⟨hed, hch2⟩ := List.chain'_cons.mp hch
      rw [compressGo]
      by_cases h : d - e == 1
      · have hsub : d - e = 1 := by simpa using h
        have hd : d = e + 1 := by omega
        simp only [if_pos h]
        rw [ih s d (by omega) hch2]
        have hseg : seg (s, d) = seg (s, e) ++ [d] := by
          simp only [seg]
          have h1 : d + 1 - s = (e + 1 - s) + 1 := by omega
          rw [h1, List.range'_1_concat]
          have h2 : s + (e + 1 - s) = d := by omega
          rw [h2]
        rw [hseg, List.append_assoc]
        rfl
      · simp only [if_neg h, List.nil_append]
        rw [compressGo_acc, List.flatMap_append]
        rw [ih d d le_rfl hch2]
        have hone : seg (d, d) = [d] := by
          simp only [seg]
          have h1 : d + 1 - d = 1 := by omega
          rw [h1, List.range'_one]
        simp [hone]

/-- The first compressed range always opens at the current run start. -/
theorem compressGo_head_fst (rest : List ℕ) :
    ∀ s e : ℕ, (compressGo rest s e []).head?.map Prod.fst = some s := by
  induction rest with
  | nil => intro s e; rfl
  | cons d tl ih =>
      intro s e
      rw [compressGo]
      by_cases h : d - e == 1
      · simp only [if_pos h]
        exact ih s d
      · simp only [if_neg h, List.nil_append]
        rw [compressGo_acc]
        rfl

/-- Compressed ranges of a strictly ascending tail are separated by more
than one day and each is well-formed (`start ≤ end`). -/
theorem compressGo_chain (rest : List ℕ) :
    ∀ s e : ℕ, s ≤ e → List.Chain' (· < ·) (e :: rest) →
      List.Chain' (fun p q : ℕ × ℕ => p.2 + 1 < q.1)
        (compressGo rest s e []) ∧
      ∀ p ∈ compressGo rest s e [], p.1 ≤ p.2 := by
  induction rest with
  | nil =>
      intro s e hse _
      refine ⟨by simp [compressGo], ?_⟩
      intro p hp
      have hp2 : p = (s, e) := by simpa [compressGo] using hp
      rw [hp2]
      exact hse
  | cons d tl ih =>
      intro s e hse hch
      obtain ⟨hed, hch2⟩ := List.chain'_cons.mp hch
      rw [compressGo]
      by_cases h : d - e == 1
      · simp only [if_pos h]
        exact ih s d (by omega) hch2
      · have hsub : ¬(d - e = 1) := by simpa using h
        have hgt : e + 1 < d := by omega
        simp only [if_neg h, List.nil_append]
        rw [compressGo_acc]
        obtain ⟨ihc, ihm⟩ := ih d d le_rfl hch2
        constructor
        · rw [List.singleton_append, List.chain'_cons']
          constructor
          · intro q hq
            have hf := compressGo_head_fst tl d d
            cases hC : (compressGo tl d d []).head? with
            | none => rw [hC] at hq; exact absurd hq (by simp)
            | some q2 =>
                rw [hC] at hq hf
                have hq2 : q2 = q := by simpa using hq
                have hfst : q2.1 = d := by simpa using hf
                rw [← hq2]
                show (s, e).2 + 1 < q2.1
                rw [hfst]
                exact hgt
          · exact ihc
        · intro p hp
          rcases List.mem_append.mp hp with h1 | h2
          · have hp2 : p = (s, e) := by simpa using h1
            rw [hp2]
            exact hse
          · exact ihm p h2

/-- Compression of any strictly ascending date list: expansion reproduces
the list, ranges are separated by gaps of more than one day, and each
range is well-formed. -/
theorem compress_ranges_spec (l : List ℕ) (hl : List.Chain' (· < ·) l) :
    (compress_gap_ranges l).flatMap seg = l ∧
    List.Chain' (fun p q : ℕ × ℕ => p.2 + 1 < q.1)
      (compress_gap_ranges l) ∧
    ∀ p ∈ compress_gap_ranges l, p.1 ≤ p.2 := by
  cases l with
  | nil =>
      exact ⟨rfl, by simp [compress_gap_ranges], by simp [compress_gap_ranges]⟩
  | cons d tl =>
      have hfl := compressGo_flatten tl d d le_rfl hl
      have hone : seg (d, d) = [d] := by
        simp only [seg]
        have h1 : d + 1 - d = 1 := by omega
        rw [h1, List.range'_one]
      obtain ⟨hc, hm⟩ := compressGo_chain tl d d le_rfl hl
      refine ⟨?_, hc, hm⟩
      show (compressGo tl d d []).flatMap seg = d :: tl
      rw [hfl, hone]
      rfl

/-- Claim C3: the gap analyzer's output is exactly the ascending list of
window days missing from the coverage set, and the subsequent compression
yields well-formed ranges separated by more than one day whose expansion
reproduces the missing list exactly (so the runs are maximal, contiguous
and non-overlapping). -/
theorem C3_gap_analysis (coverage : ℕ → Bool) (from_date to_date : ℕ) :
    (∀ d, d ∈ analyze_date_gaps coverage from_date to_date ↔
      (from_date ≤ d ∧ d ≤ to_date ∧ coverage d = false)) ∧
    List.Chain' (· < ·) (analyze_date_gaps coverage from_date to_date) ∧
    (compress_gap_ranges
        (analyze_date_gaps coverage from_date to_date)).flatMap seg =
      analyze_date_gaps coverage from_date to_date ∧
    List.Chain' (fun p q : ℕ × ℕ => p.2 + 1 < q.1)
      (compress_gap_ranges (analyze_date_gaps coverage from_date to_date)) ∧
    ∀ p ∈ compress_gap_ranges
        (analyze_date_gaps coverage from_date to_date), p.1 ≤ p.2 := by
  have hsorted :
      List.Chain' (· < ·) (analyze_date_gaps coverage from_date to_date) := by
    rw [analyze_date_gaps]
    apply List.chain'_iff_pairwise.mpr
    exact (List.pairwise_lt_range' from_date
      (to_date + 1 - from_date)).filter _
  obtain ⟨hfl, hchain, hmem⟩ := compress_ranges_spec _ hsorted
  refine ⟨?_, hsorted, hfl, hchain, hmem⟩
  intro d
  rw [analyze_date_gaps, List.mem_filter, List.mem_range'_1]
  constructor
  · rintro ⟨⟨h1, h2⟩, h3⟩
    exact ⟨h1, by omega, by simpa using h3⟩
  · rintro ⟨h1, h2, h3⟩
    exact ⟨⟨h1, by omega⟩, by simpa using h3⟩

/-- Claim C3, witness: the spec's example window (days 1..10, coverage
days 1, 2, 5, 6, 7) — missing `[3, 4, 8, 9, 10]`, compressed to
`[(3, 4), (8, 10)]`. -/
theorem C3_gap_analysis_witness :
    (analyze_date_gaps exCoverage 1 10 = [3, 4, 8, 9, 10]) ∧
    (compress_gap_ranges (analyze_date_gaps exCoverage 1 10) =
      [(3, 4), (8, 10)]) ∧
    (3 ∈ analyze_date_gaps exCoverage 1 10) ∧
    ((compress_gap_ranges (analyze_date_gaps exCoverage 1 10)).flatMap seg =
      analyze_date_gaps exCoverage 1 10) ∧
    (3, 4).1 ≤ (3, 4).2 :=
  ⟨by decide, by decide,
   ((C3_gap_analysis exCoverage 1 10).1 3).mpr (by decide),
   (C3_gap_analysis exCoverage 1 10).2.2.1,
   (C3_gap_analysis exCoverage 1 10).2.2.2.2 (3, 4) (by decide)⟩
